import Mathlib

/-!
Verification of the vouch validator-client specification against the
repository's code.  Pure fragments of the Go source are embedded as
executable Lean definitions; machine integers are modelled as `Nat`/`Int`
(no overflow is reachable in the modelled fragments), byte-string roots,
public keys and signatures as opaque natural-number identifiers with
byte-wise (decidable) equality, and fallible operations as `Except`.

Sections:
 * proposal scorer (strategies/blindedbeaconblockproposal/best)
 * attester duty handler (services/attester/standard)
 * validator-registration submission (services/blockrelay/standard)
 * time-delay hack (util)
 * controller construction checks (services/controller/standard)
-/

namespace Vouch

/-! ## Common data model -/

/-- A checkpoint: (epoch, root).  Roots are opaque 32-byte strings in the
source; they are modelled as naturals with decidable equality. -/
structure Checkpoint where
  epoch : ℕ
  root : ℕ
deriving DecidableEq

/-- `phase0.AttestationData`: slot, committee index, beacon block root and
the source/target checkpoints. -/
structure AttestationData where
  slot : ℕ
  index : ℕ
  beaconBlockRoot : ℕ
  source : Checkpoint
  target : Checkpoint
deriving DecidableEq

/-- `phase0.Attestation`.  The aggregation bitlist is modelled as the set
of committee positions whose bit is set, together with the bitlist length
(the committee size); the BLS signature is an opaque number, `0` standing
for the all-zero signature. -/
structure Attestation where
  aggregationBits : Finset ℕ
  bitLen : ℕ
  data : AttestationData
  signature : ℕ
deriving DecidableEq

/-! ## Proposal scorer

The scorer itself (`scoreBlindedProposal` of
`strategies/blindedbeaconblockproposal/best`) is exercised by
`score_internal_test.go` but its own source file is not part of the
repository snapshot, so it is modelled from the spec below. -/

/-- `priorBlockVotes`: one entry of the prior-block-votes index, keyed by
block root; holds the parent root, the block's slot and the attestation
bitlists the block carried, keyed by (slot, committee index). -/
structure PriorBlockVotes where
  parent : ℕ
  slot : ℕ
  votes : List (ℕ × ℕ × Finset ℕ)
deriving DecidableEq

/-- Look a root up in the prior-block-votes index (an association list
keyed by block root). -/
def lookupPrior (prior : List (ℕ × PriorBlockVotes)) (root : ℕ) :
    Option PriorBlockVotes :=
  (prior.find? (fun p => p.1 == root)).map (·.2)

/-- The aggregation bits recorded by one prior block for a given
(slot, committee index) key. -/
def votesFor (e : PriorBlockVotes) (slot idx : ℕ) : Finset ℕ :=
  e.votes.foldl
    (fun acc t => if t.1 = slot ∧ t.2.1 = idx then acc ∪ t.2.2 else acc) ∅

/-- Modelled from the spec: the aggregation bits for (slot, committee
index) already present in prior blocks along the parent chain starting at
`root` (step 5 of the per-attestation reward: non-ancestor blocks' votes
are ignored, only blocks reached by walking parent links count).  The
source file implementing the walk is missing from the snapshot; `fuel`
bounds the walk, callers pass one more than the index size so every
ancestor present in the index is visited. -/
def ancestorVotes : ℕ → List (ℕ × PriorBlockVotes) → ℕ → ℕ → ℕ → Finset ℕ
  | 0, _, _, _, _ => ∅
  | fuel + 1, prior, root, slot, idx =>
    match lookupPrior prior root with
    | none => ∅
    | some e => votesFor e slot idx ∪ ancestorVotes fuel prior e.parent slot idx

/-- The block-root → slot cache, modelled as an association list. -/
def lookupCache (cache : List (ℕ × ℕ)) (root : ℕ) : Option ℕ :=
  (cache.find? (fun p => p.1 == root)).map (·.2)

/-- The slot of a block root, resolved via the block-root → slot cache and,
failing that, the prior-block-votes index. -/
def slotOfRoot (cache : List (ℕ × ℕ)) (prior : List (ℕ × PriorBlockVotes))
    (root : ℕ) : Option ℕ :=
  match lookupCache cache root with
  | some s => some s
  | none => (lookupPrior prior root).map (·.slot)

/-- Modelled from the spec: resolve the root of the newest block whose slot
is at most `threshold` on the chain rooted at `root`, walking parent links
(steps 2 and 3 of the per-attestation reward).  Returns `none` when the
chain is not walkable that far; the missing source resolves roots via the
block-root → slot cache and the parent chain. -/
def chainRootAt : ℕ → List (ℕ × ℕ) → List (ℕ × PriorBlockVotes) → ℕ → ℕ →
    Option ℕ
  | 0, _, _, _, _ => none
  | fuel + 1, cache, prior, root, threshold =>
    match slotOfRoot cache prior root with
    | none => none
    | some s =>
      if s ≤ threshold then some root
      else
        match lookupPrior prior root with
        | none => none
        | some e => chainRootAt fuel cache prior e.parent threshold

/-- Slots per epoch, fixed to 32 by the chain parameters assumed by the
spec's concrete scenarios. -/
def slotsPerEpoch : ℕ := 32

/-- Modelled from the spec: head-correctness of an attestation (step 2 of
the per-attestation reward) — the attestation's beacon block root equals
the root at its slot along the chain rooted at the proposal's parent root;
when the chain is not walkable the attestation is treated as head-correct.
The source implementing this check is missing from the snapshot. -/
def headCorrectB (cache : List (ℕ × ℕ)) (prior : List (ℕ × PriorBlockVotes))
    (parentRoot : ℕ) (d : AttestationData) : Bool :=
  match chainRootAt (prior.length + 1) cache prior parentRoot d.slot with
  | none => true
  | some r => r == d.beaconBlockRoot

/-- Modelled from the spec: target-correctness of an attestation (step 3
of the per-attestation reward) — the attestation's target root equals the
block at the first slot of the target epoch on the chain rooted at the
proposal's parent root, with the same unwalkable-chain fallback.  The
source implementing this check is missing from the snapshot. -/
def targetCorrectB (cache : List (ℕ × ℕ)) (prior : List (ℕ × PriorBlockVotes))
    (parentRoot : ℕ) (d : AttestationData) : Bool :=
  match chainRootAt (prior.length + 1) cache prior parentRoot
      (slotsPerEpoch * d.target.epoch) with
  | none => true
  | some r => r == d.target.root

/-- Modelled from the spec: per-new-bit base reward factor.  The factor is
the consensus-layer micro-reward weight sum (timely source weight 14 when
the inclusion distance is at most 5, timely target weight 26 when
target-correct, timely head weight 14 when head-correct at distance 1) over
the weight denominator 64.  The spec's §4.1 step 4 lists different
coefficients, but these are the ones its own §8 scenario table and the
repository's `TestScore` vectors pin down. -/
def attFactor (d : ℕ) (head target : Bool) : ℚ :=
  ((if d ≤ 5 then (14 : ℚ) else 0) + (if target then 26 else 0) +
    (if head && d == 1 then 14 else 0)) / 64

/-- Running state of the attestation fold: the accumulated score and the
bits already credited within this proposal, keyed by (slot, committee
index). -/
structure ScoreState where
  score : ℚ
  seen : List ((ℕ × ℕ) × Finset ℕ)

/-- Bits already credited within the proposal for a (slot, committee
index) key. -/
def seenLookup (seen : List ((ℕ × ℕ) × Finset ℕ)) (k : ℕ × ℕ) : Finset ℕ :=
  match seen.find? (fun p => p.1 == k) with
  | some p => p.2
  | none => ∅

/-- Record further credited bits for a (slot, committee index) key. -/
def seenInsert (seen : List ((ℕ × ℕ) × Finset ℕ)) (k : ℕ × ℕ)
    (bits : Finset ℕ) : List ((ℕ × ℕ) × Finset ℕ) :=
  (k, seenLookup seen k ∪ bits) :: seen

/-- Modelled from the spec: score one attestation of the proposal body
(steps 1–6 of the per-attestation reward).  Attestations whose inclusion
distance would be zero or negative are skipped; only bits not already set
in a prior ancestor block, nor already credited for the same
(slot, committee index) inside this proposal, earn the base reward
factor. -/
def scoreAttestation (cache : List (ℕ × ℕ))
    (prior : List (ℕ × PriorBlockVotes)) (parentRoot proposalSlot : ℕ)
    (st : ScoreState) (a : Attestation) : ScoreState :=
  if a.data.slot < proposalSlot then
    let d := proposalSlot - a.data.slot
    let head := headCorrectB cache prior parentRoot a.data
    let target := targetCorrectB cache prior parentRoot a.data
    let k : ℕ × ℕ := (a.data.slot, a.data.index)
    let already :=
      ancestorVotes (prior.length + 1) prior parentRoot a.data.slot
        a.data.index ∪ seenLookup st.seen k
    let newBits := a.aggregationBits \ already
    { score := st.score + (newBits.card : ℚ) * attFactor d head target,
      seen := seenInsert st.seen k a.aggregationBits }
  else st

/-- A bellatrix blinded beacon block, reduced to the fields the scorer
reads: slot, parent root, body attestations and the sync-committee bits of
the sync aggregate. -/
structure BlindedBeaconBlock where
  slot : ℕ
  parentRoot : ℕ
  attestations : List Attestation
  syncCommitteeBits : Finset ℕ
deriving DecidableEq

/-- Attestation component of a block's score: fold the per-attestation
reward over the body's attestations. -/
def attScore (cache : List (ℕ × ℕ)) (prior : List (ℕ × PriorBlockVotes))
    (b : BlindedBeaconBlock) : ℚ :=
  (b.attestations.foldl (scoreAttestation cache prior b.parentRoot b.slot)
    ⟨0, []⟩).score

/-- Modelled from the spec: score of a bellatrix blinded block — the
attestation component plus the sync-aggregate reward
popcount × (1/32) × sync-factor (the sync factor is a chain-spec
configuration constant, taken as a parameter). -/
def scoreBlock (syncFactor : ℚ) (cache : List (ℕ × ℕ))
    (prior : List (ℕ × PriorBlockVotes)) (b : BlindedBeaconBlock) : ℚ :=
  attScore cache prior b + (b.syncCommitteeBits.card : ℚ) * syncFactor / 32

/-- `api.VersionedBlindedProposal`: a version tag plus the payload branch
for the bellatrix fork (nil in the source is `none` here). -/
structure VersionedBlindedProposal where
  version : ℕ
  bellatrix : Option BlindedBeaconBlock
deriving DecidableEq

/-- The `spec.DataVersionBellatrix` tag. -/
def bellatrixVersion : ℕ := 3

/-- Modelled from the spec: `scoreBlindedProposal` — deterministic,
never-failing score of a candidate blinded proposal; a nil proposal, a nil
payload or an unrecognized fork version scores 0. -/
def scoreBlindedProposal (syncFactor : ℚ) (cache : List (ℕ × ℕ))
    (prior : List (ℕ × PriorBlockVotes))
    (p : Option VersionedBlindedProposal) : ℚ :=
  match p with
  | none => 0
  | some vp =>
    if vp.version = bellatrixVersion then
      match vp.bellatrix with
      | none => 0
      | some b => scoreBlock syncFactor cache prior b
    else 0

/-! ### Concrete scenario fixtures

Root constants follow the repeated-byte values of the test vectors
(`0x02…02 ↦ 2`, `0x43…43 ↦ 0x43`, …); the block-root → slot cache is the
one `TestScore` installs. -/

/-- The block-root → slot cache of `TestScore`. -/
def testCache : List (ℕ × ℕ) :=
  [(1, 12344), (2, 12345), (3, 12346), (4, 12347), (5, 12348)]

/-- Scenario A (`SingleAttestation`): slot 12346, parent `0x02…02`, one
bit at data.slot 12345 with beacon block root `0x02…02`. -/
def blockA : BlindedBeaconBlock :=
  ⟨12346, 2, [⟨{0}, 128, ⟨12345, 0, 2, ⟨0, 0⟩, ⟨385, 1⟩⟩, 0⟩], ∅⟩

/-- Scenario B (`BellatrixSingleAttestationDistance1IncorrectHead`): as A
but parent `0x01…01`, making the attestation head-incorrect. -/
def blockB : BlindedBeaconBlock :=
  ⟨12346, 1, [⟨{0}, 128, ⟨12345, 0, 2, ⟨0, 0⟩, ⟨385, 1⟩⟩, 0⟩], ∅⟩

/-- Scenario C (`BellatrixSingleAttestationDistance6`): slot 12350, parent
`0x01…01`, one bit at data.slot 12339 (distance 11). -/
def blockC : BlindedBeaconBlock :=
  ⟨12350, 1, [⟨{0}, 128, ⟨12339, 0, 0, ⟨0, 0⟩, ⟨385, 7⟩⟩, 0⟩], ∅⟩

/-- Scenario D (`BellatrixOverlappingAttestations`): slot 12345, two
overlapping attestations (bits {0} and {0,1}) over the same slot 12343. -/
def blockD : BlindedBeaconBlock :=
  ⟨12345, 1,
    [⟨{0}, 128, ⟨12343, 0, 0, ⟨0, 0⟩, ⟨385, 0x43⟩⟩, 0⟩,
     ⟨{0, 1}, 128, ⟨12343, 0, 0, ⟨0, 0⟩, ⟨385, 0x43⟩⟩, 0⟩], ∅⟩

/-- Prior-block-votes index of scenario E (`PriorVotes`): chain
`0x43 ← 0x41 ← 0x40` with `0x42 ← 0x41` orphaned; the orphan carries 5
bits and the ancestor `0x43` carries 2 bits at slot 12342. -/
def priorE : List (ℕ × PriorBlockVotes) :=
  [(0x41, ⟨0x40, 12341, []⟩),
   (0x42, ⟨0x41, 12342, [(12342, 0, {0, 1, 2, 3, 4})]⟩),
   (0x43, ⟨0x41, 12343, [(12342, 0, {0, 1})]⟩)]

/-- Scenario E (`PriorVotes`): slot 12344, parent `0x43…43`, 5 bits at
slot 12342. -/
def blockE : BlindedBeaconBlock :=
  ⟨12344, 0x43,
    [⟨{0, 1, 2, 3, 4}, 128, ⟨12342, 0, 0x42, ⟨0, 0⟩, ⟨385, 0x42⟩⟩, 0⟩], ∅⟩

/-- Scenario F (`InvalidVersion`): a populated bellatrix payload carried
under the unknown version tag 999. -/
def blockF : BlindedBeaconBlock :=
  ⟨12345, 0,
    [⟨{0}, 128, ⟨12343, 0, 0, ⟨0, 0⟩, ⟨0, 0⟩⟩, 0⟩,
     ⟨{0, 1}, 128, ⟨12343, 0, 0, ⟨0, 0⟩, ⟨0, 0⟩⟩, 0⟩], ∅⟩

/-- Prior-block-votes index of the `TargetCorrect`/`TargetIncorrect`
vectors: chain `0x44 ← 0x20 ← 0x19` with `0x20` at the first slot of
epoch 385. -/
def priorT : List (ℕ × PriorBlockVotes) :=
  [(0x44, ⟨0x20, 12344, []⟩), (0x20, ⟨0x19, 12320, []⟩)]

/-- The `TargetIncorrect` vector: head-correct at distance 1 but with a
target root that does not match the chain. -/
def blockT : BlindedBeaconBlock :=
  ⟨12345, 0x44,
    [⟨{0}, 128, ⟨12344, 0, 0x44, ⟨0, 0⟩, ⟨385, 0x15⟩⟩, 0⟩], ∅⟩

/-! ## Scorer theorems -/

/-- Score of a proposal with a single attestation: the number of new bits
(bits not already present in an ancestor block for the same
(slot, committee index)) times the base reward factor. -/
theorem attScore_single (cache : List (ℕ × ℕ))
    (prior : List (ℕ × PriorBlockVotes)) (pslot parent len sig : ℕ)
    (d0 : AttestationData) (bs : Finset ℕ) (h4 : d0.slot < pslot) :
    attScore cache prior ⟨pslot, parent, [⟨bs, len, d0, sig⟩], ∅⟩ =
      ((bs \ ancestorVotes (prior.length + 1) prior parent d0.slot
        d0.index).card : ℚ) *
        attFactor (pslot - d0.slot) (headCorrectB cache prior parent d0)
          (targetCorrectB cache prior parent d0) := by
  simp [attScore, scoreAttestation, if_pos h4, seenLookup]

/-- One step of the attestation fold, evaluated on a countable
attestation: adds new-bit count times the base reward factor and records
the attestation's bits as credited. -/
theorem scoreAttestation_eval (cache : List (ℕ × ℕ))
    (prior : List (ℕ × PriorBlockVotes)) (parent pslot : ℕ) (q : ℚ)
    (seen : List ((ℕ × ℕ) × Finset ℕ)) (a : Attestation)
    (h : a.data.slot < pslot) :
    scoreAttestation cache prior parent pslot ⟨q, seen⟩ a =
      ⟨q + ((a.aggregationBits \
          (ancestorVotes (prior.length + 1) prior parent a.data.slot
            a.data.index ∪ seenLookup seen (a.data.slot, a.data.index))).card
            : ℚ) *
          attFactor (pslot - a.data.slot)
            (headCorrectB cache prior parent a.data)
            (targetCorrectB cache prior parent a.data),
        seenInsert seen (a.data.slot, a.data.index) a.aggregationBits⟩ := by
  simp [scoreAttestation, if_pos h]

/-- C1: each concrete scenario of the spec's table scores exactly the
listed value (0.84375 = 27/32, 0.625 = 5/8, 0.40625 = 13/32, 1.25 = 5/4,
1.875 = 15/8, and 0 for an unknown fork version), for every sync-factor
configuration, since the scenarios assume an empty sync aggregate. -/
theorem c1_concrete_scenarios : ∀ sf : ℚ,
    scoreBlindedProposal sf testCache [] (some ⟨3, some blockA⟩) = 27 / 32 ∧
    scoreBlindedProposal sf testCache [] (some ⟨3, some blockB⟩) = 5 / 8 ∧
    scoreBlindedProposal sf testCache [] (some ⟨3, some blockC⟩) = 13 / 32 ∧
    scoreBlindedProposal sf testCache [] (some ⟨3, some blockD⟩) = 5 / 4 ∧
    scoreBlindedProposal sf testCache priorE (some ⟨3, some blockE⟩) =
      15 / 8 ∧
    scoreBlindedProposal sf testCache [] (some ⟨999, some blockF⟩) = 0 := by
  intro sf
  have hs : ∀ (c : List (ℕ × ℕ)) (p : List (ℕ × PriorBlockVotes))
      (b : BlindedBeaconBlock), b.syncCommitteeBits = ∅ →
      scoreBlindedProposal sf c p (some ⟨3, some b⟩) = attScore c p b := by
    intro c p b hb
    simp [scoreBlindedProposal, bellatrixVersion, scoreBlock, hb]
  refine ⟨?_, ?_, ?_, ?_, ?_, ?_⟩
  · rw [hs _ _ _ rfl]
    unfold blockA
    rw [attScore_single testCache [] 12346 2 128 0
      ⟨12345, 0, 2, ⟨0, 0⟩, ⟨385, 1⟩⟩ {0} (by norm_num)]
    rw [show headCorrectB testCache [] 2 ⟨12345, 0, 2, ⟨0, 0⟩, ⟨385, 1⟩⟩ =
        true from by decide,
      show targetCorrectB testCache [] 2 ⟨12345, 0, 2, ⟨0, 0⟩, ⟨385, 1⟩⟩ =
        true from by decide,
      show (({0} : Finset ℕ) \
          ancestorVotes (List.length ([] : List (ℕ × PriorBlockVotes)) + 1)
            [] 2 12345 0).card = 1 from by decide]
    norm_num [attFactor]
  · rw [hs _ _ _ rfl]
    unfold blockB
    rw [attScore_single testCache [] 12346 1 128 0
      ⟨12345, 0, 2, ⟨0, 0⟩, ⟨385, 1⟩⟩ {0} (by norm_num)]
    rw [show headCorrectB testCache [] 1 ⟨12345, 0, 2, ⟨0, 0⟩, ⟨385, 1⟩⟩ =
        false from by decide,
      show targetCorrectB testCache [] 1 ⟨12345, 0, 2, ⟨0, 0⟩, ⟨385, 1⟩⟩ =
        true from by decide,
      show (({0} : Finset ℕ) \
          ancestorVotes (List.length ([] : List (ℕ × PriorBlockVotes)) + 1)
            [] 1 12345 0).card = 1 from by decide]
    norm_num [attFactor]
  · rw [hs _ _ _ rfl]
    unfold blockC
    rw [attScore_single testCache [] 12350 1 128 0
      ⟨12339, 0, 0, ⟨0, 0⟩, ⟨385, 7⟩⟩ {0} (by norm_num)]
    rw [show headCorrectB testCache [] 1 ⟨12339, 0, 0, ⟨0, 0⟩, ⟨385, 7⟩⟩ =
        true from by decide,
      show targetCorrectB testCache [] 1 ⟨12339, 0, 0, ⟨0, 0⟩, ⟨385, 7⟩⟩ =
        true from by decide,
      show (({0} : Finset ℕ) \
          ancestorVotes (List.length ([] : List (ℕ × PriorBlockVotes)) + 1)
            [] 1 12339 0).card = 1 from by decide]
    norm_num [attFactor]
  · rw [hs _ _ _ rfl]
    unfold blockD attScore
    simp only [List.foldl]
    rw [scoreAttestation_eval testCache [] 1 12345 0 []
        ⟨{0}, 128, ⟨12343, 0, 0, ⟨0, 0⟩, ⟨385, 0x43⟩⟩, 0⟩ (by norm_num)]
    rw [scoreAttestation_eval testCache [] 1 12345 _ _
        ⟨{0, 1}, 128, ⟨12343, 0, 0, ⟨0, 0⟩, ⟨385, 0x43⟩⟩, 0⟩ (by norm_num)]
    rw [show headCorrectB testCache [] 1
        ⟨12343, 0, 0, ⟨0, 0⟩, ⟨385, 0x43⟩⟩ = true from by decide,
      show targetCorrectB testCache [] 1
        ⟨12343, 0, 0, ⟨0, 0⟩, ⟨385, 0x43⟩⟩ = true from by decide,
      show (({0} : Finset ℕ) \
          (ancestorVotes (List.length ([] : List (ℕ × PriorBlockVotes)) + 1)
            [] 1 12343 0 ∪ seenLookup [] (12343, 0))).card = 1 from
        by decide,
      show (({0, 1} : Finset ℕ) \
          (ancestorVotes (List.length ([] : List (ℕ × PriorBlockVotes)) + 1)
            [] 1 12343 0 ∪
            seenLookup (seenInsert [] (12343, 0) {0}) (12343, 0))).card = 1
        from by decide]
    norm_num [attFactor]
  · rw [hs _ _ _ rfl]
    unfold blockE
    rw [attScore_single testCache priorE 12344 0x43 128 0
      ⟨12342, 0, 0x42, ⟨0, 0⟩, ⟨385, 0x42⟩⟩ {0, 1, 2, 3, 4} (by norm_num)]
    rw [show headCorrectB testCache priorE 0x43
        ⟨12342, 0, 0x42, ⟨0, 0⟩, ⟨385, 0x42⟩⟩ = false from by decide,
      show targetCorrectB testCache priorE 0x43
        ⟨12342, 0, 0x42, ⟨0, 0⟩, ⟨385, 0x42⟩⟩ = true from by decide,
      show (({0, 1, 2, 3, 4} : Finset ℕ) \
          ancestorVotes (priorE.length + 1) priorE 0x43 12342 0).card = 3
        from by decide]
    norm_num [attFactor]
  · simp [scoreBlindedProposal, bellatrixVersion]

/-- C2 counterexample: the `TargetIncorrect` vector of the repository's
`TestScore` has a single new bit whose attestation is head-correct at
inclusion distance 1, yet it scores 7/16 = 0.4375, not the 27/32 = 0.84375
the claim's factor table assigns to that case. -/
theorem c2_counterexample :
    headCorrectB testCache priorT 0x44
      ⟨12344, 0, 0x44, ⟨0, 0⟩, ⟨385, 0x15⟩⟩ = true ∧
    (12345 : ℕ) - 12344 = 1 ∧
    scoreBlindedProposal 0 testCache priorT (some ⟨3, some blockT⟩) =
      7 / 16 ∧
    (7 / 16 : ℚ) ≠ 27 / 32 := by
  refine ⟨by decide, by decide, ?_, by norm_num⟩
  have hb : scoreBlindedProposal 0 testCache priorT (some ⟨3, some blockT⟩) =
      attScore testCache priorT blockT := by
    simp [scoreBlindedProposal, bellatrixVersion, scoreBlock]
  rw [hb]
  unfold blockT
  rw [attScore_single testCache priorT 12345 0x44 128 0
    ⟨12344, 0, 0x44, ⟨0, 0⟩, ⟨385, 0x15⟩⟩ {0} (by norm_num)]
  rw [show headCorrectB testCache priorT 0x44
      ⟨12344, 0, 0x44, ⟨0, 0⟩, ⟨385, 0x15⟩⟩ = true from by decide,
    show targetCorrectB testCache priorT 0x44
      ⟨12344, 0, 0x44, ⟨0, 0⟩, ⟨385, 0x15⟩⟩ = false from by decide,
    show (({0} : Finset ℕ) \
        ancestorVotes (priorT.length + 1) priorT 0x44 12344 0).card = 1
      from by decide]
  norm_num [attFactor]

/-- C2 (amended): for a proposal with one attestation over (slot, committee
index), the score is the count of new bits times the per-new-bit factor
(14·[d ≤ 5] + 26·[target-correct] + 14·[head-correct ∧ d = 1]) / 64, i.e.
27/32 only when head-correct, d = 1 *and* target-correct; 20/32 when
target-correct at d ≤ 5 otherwise; 13/32 when target-correct at d > 5;
14/32 when head-correct at d = 1 but target-incorrect; 7/32 for d ≤ 5
alone; 0 otherwise. -/
theorem c2_base_reward_factor (cache : List (ℕ × ℕ))
    (prior : List (ℕ × PriorBlockVotes)) (pslot parent len sig : ℕ)
    (d0 : AttestationData) (bits : Finset ℕ) (h4 : d0.slot < pslot) :
    attScore cache prior ⟨pslot, parent, [⟨bits, len, d0, sig⟩], ∅⟩ =
      ((bits \ ancestorVotes (prior.length + 1) prior parent d0.slot
        d0.index).card : ℚ) *
        (((if pslot - d0.slot ≤ 5 then (14 : ℚ) else 0) +
          (if targetCorrectB cache prior parent d0 = true then (26 : ℚ)
            else 0) +
          (if headCorrectB cache prior parent d0 = true ∧
              pslot - d0.slot = 1 then (14 : ℚ) else 0)) / 64) := by
  rw [attScore_single cache prior pslot parent len sig d0 bits h4]
  congr 1
  simp [attFactor, Bool.and_eq_true]

/-- Witness for C2 (amended): the `TargetIncorrect` vector, one bit,
head-correct at d = 1 with incorrect target: (14 + 0 + 14)/64 = 7/16. -/
theorem c2_base_reward_factor_witness :
    (12344 : ℕ) < 12345 ∧
    attScore testCache priorT
        ⟨12345, 0x44,
          [⟨{0}, 128, ⟨12344, 0, 0x44, ⟨0, 0⟩, ⟨385, 0x15⟩⟩, 0⟩], ∅⟩ =
      ((({0} : Finset ℕ) \ ancestorVotes (priorT.length + 1) priorT 0x44
        12344 0).card : ℚ) *
        (((if 12345 - 12344 ≤ 5 then (14 : ℚ) else 0) +
          (if targetCorrectB testCache priorT 0x44
              ⟨12344, 0, 0x44, ⟨0, 0⟩, ⟨385, 0x15⟩⟩ = true then (26 : ℚ)
            else 0) +
          (if headCorrectB testCache priorT 0x44
                ⟨12344, 0, 0x44, ⟨0, 0⟩, ⟨385, 0x15⟩⟩ = true ∧
              (12345 : ℕ) - 12344 = 1 then (14 : ℚ) else 0)) / 64) :=
  ⟨by decide,
    c2_base_reward_factor testCache priorT 12345 0x44 128 0
      ⟨12344, 0, 0x44, ⟨0, 0⟩, ⟨385, 0x15⟩⟩ {0} (by decide)⟩

/-- C3: only new attesting bits are credited.  For a single-attestation
proposal: adding a bit already set in an ancestor block's attestation for
the same (slot, committee index) leaves the score exactly as if the bit
were omitted; adding a bit *not* set in any ancestor block (even when
non-ancestor, orphaned blocks of the index carry it) adds the full base
reward factor for that attestation. -/
theorem c3_new_bits_only (cache : List (ℕ × ℕ))
    (prior : List (ℕ × PriorBlockVotes)) (pslot parent len sig : ℕ)
    (d0 : AttestationData) (bits : Finset ℕ) (b1 b2 : ℕ)
    (h1 : b1 ∈ ancestorVotes (prior.length + 1) prior parent d0.slot d0.index)
    (h2 : b2 ∉ ancestorVotes (prior.length + 1) prior parent d0.slot d0.index)
    (h3 : b2 ∉ bits) (h4 : d0.slot < pslot) :
    attScore cache prior
        ⟨pslot, parent, [⟨insert b1 bits, len, d0, sig⟩], ∅⟩ =
      attScore cache prior
        ⟨pslot, parent, [⟨bits.erase b1, len, d0, sig⟩], ∅⟩ ∧
    attScore cache prior
        ⟨pslot, parent, [⟨insert b2 bits, len, d0, sig⟩], ∅⟩ =
      attScore cache prior ⟨pslot, parent, [⟨bits, len, d0, sig⟩], ∅⟩ +
        attFactor (pslot - d0.slot) (headCorrectB cache prior parent d0)
          (targetCorrectB cache prior parent d0) := by
  have key := attScore_single cache prior pslot parent len sig d0
  constructor
  · have e1 : insert b1 bits \ ancestorVotes (prior.length + 1) prior parent
        d0.slot d0.index =
        bits \ ancestorVotes (prior.length + 1) prior parent d0.slot
          d0.index :=
      Finset.insert_sdiff_of_mem _ h1
    have e2 : bits.erase b1 \ ancestorVotes (prior.length + 1) prior parent
        d0.slot d0.index =
        bits \ ancestorVotes (prior.length + 1) prior parent d0.slot
          d0.index := by
      ext x
      simp only [Finset.mem_sdiff, Finset.mem_erase]
      constructor
      · rintro ⟨⟨_, hx⟩, hxa⟩
        exact ⟨hx, hxa⟩
      · rintro ⟨hx, hxa⟩
        exact ⟨⟨fun he => hxa (he ▸ h1), hx⟩, hxa⟩
    rw [key _ h4, key _ h4, e1, e2]
  · have e3 : insert b2 bits \ ancestorVotes (prior.length + 1) prior parent
        d0.slot d0.index =
        insert b2 (bits \ ancestorVotes (prior.length + 1) prior parent
          d0.slot d0.index) :=
      Finset.insert_sdiff_of_not_mem _ h2
    have e4 : b2 ∉ bits \ ancestorVotes (prior.length + 1) prior parent
        d0.slot d0.index := fun h => h3 (Finset.mem_sdiff.mp h).1
    rw [key _ h4, key _ h4, e3, Finset.card_insert_of_not_mem e4]
    push_cast
    ring

/-- Witness for C3, on the `PriorVotes` chain: bit 1 is already in the
ancestor `0x43…43`'s votes, so adding it changes nothing; bit 4 is only in
the orphaned block `0x42…42`'s votes, so adding it still earns the full
factor. -/
theorem c3_new_bits_only_witness :
    ((1 ∈ ancestorVotes (priorE.length + 1) priorE 0x43 12342 0) ∧
     (4 ∉ ancestorVotes (priorE.length + 1) priorE 0x43 12342 0) ∧
     (4 ∉ ({1, 2, 3} : Finset ℕ)) ∧ (12342 : ℕ) < 12344) ∧
    (attScore testCache priorE
        ⟨12344, 0x43,
          [⟨insert 1 {1, 2, 3}, 128,
            ⟨12342, 0, 0x42, ⟨0, 0⟩, ⟨385, 0x42⟩⟩, 0⟩], ∅⟩ =
      attScore testCache priorE
        ⟨12344, 0x43,
          [⟨({1, 2, 3} : Finset ℕ).erase 1, 128,
            ⟨12342, 0, 0x42, ⟨0, 0⟩, ⟨385, 0x42⟩⟩, 0⟩], ∅⟩ ∧
      attScore testCache priorE
        ⟨12344, 0x43,
          [⟨insert 4 {1, 2, 3}, 128,
            ⟨12342, 0, 0x42, ⟨0, 0⟩, ⟨385, 0x42⟩⟩, 0⟩], ∅⟩ =
        attScore testCache priorE
          ⟨12344, 0x43,
            [⟨{1, 2, 3}, 128,
              ⟨12342, 0, 0x42, ⟨0, 0⟩, ⟨385, 0x42⟩⟩, 0⟩], ∅⟩ +
          attFactor (12344 - 12342)
            (headCorrectB testCache priorE 0x43
              ⟨12342, 0, 0x42, ⟨0, 0⟩, ⟨385, 0x42⟩⟩)
            (targetCorrectB testCache priorE 0x43
              ⟨12342, 0, 0x42, ⟨0, 0⟩, ⟨385, 0x42⟩⟩)) :=
  ⟨⟨by decide, by decide, by decide, by decide⟩,
    c3_new_bits_only testCache priorE 12344 0x43 128 0
      ⟨12342, 0, 0x42, ⟨0, 0⟩, ⟨385, 0x42⟩⟩ {1, 2, 3} 1 4
      (by decide) (by decide) (by decide) (by decide)⟩

/-! ## Attester duty handler (`services/attester/standard/service.go`)

The `Service.Attest` entry point and its internal `attest` helper,
embedded as a sequential state-passing function.  The per-index
mutex-protected filter loop of the source is sequentialised; external
collaborators (attestation-data provider, accounts provider, signer,
submitter) are supplied as an environment of pre-determined results. -/

/-- An attester duty: slot, validator indices and their parallel
committee data, plus the slot's committee sizes keyed by committee
index. -/
structure Duty where
  slot : ℕ
  validatorIndices : List ℕ
  committeeIndices : List ℕ
  validatorCommitteeIndices : List ℕ
  committeeSizes : List (ℕ × ℕ)
deriving DecidableEq

/-- `Duty.CommitteeSize`: size of a committee of the duty's slot. -/
def committeeSize (d : Duty) (idx : ℕ) : ℕ :=
  ((d.committeeSizes.find? (fun p => p.1 == idx)).map (·.2)).getD 0

/-- The attester service's mutable state: slots-per-epoch from the spec
and the attested map, epoch → set of validator indices that have already
attested. -/
structure AttesterService where
  slotsPerEpoch : ℕ
  attested : List (ℕ × Finset ℕ)
deriving DecidableEq

/-- Look an epoch up in the attested map. -/
def lookupAtt : List (ℕ × Finset ℕ) → ℕ → Option (Finset ℕ)
  | [], _ => none
  | x :: m, e => if x.1 = e then some x.2 else lookupAtt m e

/-- Delete an epoch from the attested map (housekeeping). -/
def delAtt : List (ℕ × Finset ℕ) → ℕ → List (ℕ × Finset ℕ)
  | [], _ => []
  | x :: m, e => if x.1 = e then delAtt m e else x :: delAtt m e

/-- Store an epoch's validator set in the attested map. -/
def setAtt (m : List (ℕ × Finset ℕ)) (e : ℕ) (s : Finset ℕ) :
    List (ℕ × Finset ℕ) :=
  (e, s) :: delAtt m e

/-- Ensure the attested map has an entry for the epoch (`Attest`,
lines 117–122). -/
def ensureAtt (m : List (ℕ × Finset ℕ)) (e : ℕ) : List (ℕ × Finset ℕ) :=
  if (lookupAtt m e).isSome then m else setAtt m e ∅

/-- The filter loop of `Attest` (lines 124–137): walks the duty's
validator indices; an index already in the epoch's attested set is
dropped, otherwise it is kept *and at once inserted into the attested
set*. -/
def filterIndices (s : Finset ℕ) : List ℕ → List ℕ × Finset ℕ
  | [] => ([], s)
  | i :: rest =>
    if i ∈ s then filterIndices s rest
    else
      let r := filterIndices (insert i s) rest
      (i :: r.1, r.2)

/-- Result environment for one `Attest` invocation: the outcomes the
external collaborators would return. -/
structure AttestEnv where
  attestationData : Except Unit AttestationData
  accounts : Except Unit (List (ℕ × ℕ))
  signatures : Except Unit (List ℕ)
  submitOk : Bool

/-- The error outcomes of `Attest`, one per `return nil, err` site. -/
inductive AttestError where
  | fetchFailed
  | slotMismatch
  | sourceAboveTarget
  | targetAboveCurrent
  | accountsFailed
  | signFailed
  | submitFailed
deriving DecidableEq

/-- Outcome of one `Attest` invocation: the service state afterwards, the
returned value or error, and whether `SubmitAttestations` was invoked. -/
structure AttestResult where
  service : AttesterService
  result : Except AttestError (List Attestation)
  submitted : Bool

/-- Per-account committee data (`Attest`, lines 181–193): committee
index, position within the committee and committee size, resolved through
the kept-indices array. -/
def perValidatorInfo (duty : Duty) (kept : List ℕ) (vi : ℕ) : ℕ × ℕ × ℕ :=
  let pos := kept.indexOf vi
  let ci := duty.committeeIndices.getD pos 0
  let vci := duty.validatorCommitteeIndices.getD pos 0
  (ci, vci, committeeSize duty ci)

/-- The attestation list built by the internal `attest` (lines 260–288):
one attestation per non-zero signature, with a single aggregation bit at
the validator's committee position and data copied from the fetched
attestation data except for the duty's slot and the committee index. -/
def buildAttestations (duty : Duty) (kept : List ℕ)
    (accounts : List (ℕ × ℕ)) (ad : AttestationData) (sigs : List ℕ) :
    List Attestation :=
  (sigs.zip (accounts.map (fun p => perValidatorInfo duty kept p.1))).filterMap
    (fun q =>
      if q.1 = 0 then none
      else
        some
          { aggregationBits := {q.2.2.1}, bitLen := q.2.2.2,
            data :=
              { slot := duty.slot, index := q.2.1,
                beaconBlockRoot := ad.beaconBlockRoot, source := ad.source,
                target := ad.target },
            signature := q.1 })

/-- The internal `attest` helper (lines 227–303): sign, build
attestations skipping all-zero signatures, return without submitting when
none remain, otherwise submit.  The second component records whether the
submitter was invoked. -/
def attestInner (duty : Duty) (kept : List ℕ) (accounts : List (ℕ × ℕ))
    (ad : AttestationData) (env : AttestEnv) :
    Except AttestError (List Attestation) × Bool :=
  match env.signatures with
  | .error _ => (.error .signFailed, false)
  | .ok sigs =>
    let atts := buildAttestations duty kept accounts ad sigs
    if atts.isEmpty then (.ok atts, false)
    else if env.submitOk then (.ok atts, true)
    else (.error .submitFailed, true)

/-- `Service.Attest` (lines 104–223), sequentialised.  The epoch is the
duty's slot over slots-per-epoch (the standard chain-time service's
`SlotToEpoch`).  Note the order of effects in the source: the filter loop
inserts the kept validators into the attested map *before* the
attestation data is fetched and validated, and nothing removes them on
the error paths; the epoch-minus-two housekeeping runs only on the
success path. -/
def Attest (svc : AttesterService) (duty : Duty) (env : AttestEnv) :
    AttestResult :=
  let epoch := duty.slot / svc.slotsPerEpoch
  let m1 := ensureAtt svc.attested epoch
  let fr := filterIndices ((lookupAtt m1 epoch).getD ∅) duty.validatorIndices
  let m2 := setAtt m1 epoch fr.2
  let svc2 : AttesterService := ⟨svc.slotsPerEpoch, m2⟩
  match env.attestationData with
  | .error _ => ⟨svc2, .error .fetchFailed, false⟩
  | .ok ad =>
    if ad.slot ≠ duty.slot then ⟨svc2, .error .slotMismatch, false⟩
    else if ad.target.epoch < ad.source.epoch then
      ⟨svc2, .error .sourceAboveTarget, false⟩
    else if duty.slot / svc.slotsPerEpoch < ad.target.epoch then
      ⟨svc2, .error .targetAboveCurrent, false⟩
    else
      match env.accounts with
      | .error _ => ⟨svc2, .error .accountsFailed, false⟩
      | .ok accounts =>
        match attestInner duty fr.1 accounts ad env with
        | (.error e, sub) => ⟨svc2, .error e, sub⟩
        | (.ok atts, sub) =>
          let m3 := if 1 < epoch then delAtt m2 (epoch - 2) else m2
          ⟨⟨svc.slotsPerEpoch, m3⟩, .ok atts, sub⟩

/-- The kept (i.e. signed-for) validator indices of one `Attest`
invocation: the duty's indices minus those already in the epoch's
attested set. -/
def keptIndices (svc : AttesterService) (duty : Duty) : List ℕ :=
  (filterIndices
    ((lookupAtt (ensureAtt svc.attested (duty.slot / svc.slotsPerEpoch))
      (duty.slot / svc.slotsPerEpoch)).getD ∅) duty.validatorIndices).1

/-! ### Attested-map and filter-loop lemmas -/

/-- Looking up the epoch just stored yields the stored set. -/
theorem lookupAtt_setAtt_self (m : List (ℕ × Finset ℕ)) (e : ℕ)
    (s : Finset ℕ) : lookupAtt (setAtt m e s) e = some s := by
  simp [lookupAtt, setAtt]

/-- Deleting one epoch leaves lookups of any other epoch unchanged. -/
theorem lookupAtt_delAtt (m : List (ℕ × Finset ℕ)) (e e' : ℕ)
    (h : e ≠ e') : lookupAtt (delAtt m e') e = lookupAtt m e := by
  induction m with
  | nil => rfl
  | cons x m ih =>
    by_cases hx : x.1 = e'
    · have hxe : x.1 ≠ e := fun he => h (he.symm.trans hx)
      rw [delAtt, if_pos hx, lookupAtt, if_neg hxe]
      exact ih
    · rw [delAtt, if_neg hx, lookupAtt]
      by_cases hxe : x.1 = e
      · rw [if_pos hxe, lookupAtt, if_pos hxe]
      · rw [if_neg hxe, lookupAtt, if_neg hxe]
        exact ih

/-- Ensuring an epoch entry does not change the set the filter loop
starts from. -/
theorem lookupAtt_ensureAtt_getD (m : List (ℕ × Finset ℕ)) (e : ℕ) :
    (lookupAtt (ensureAtt m e) e).getD ∅ = (lookupAtt m e).getD ∅ := by
  unfold ensureAtt
  by_cases h : (lookupAtt m e).isSome
  · rw [if_pos h]
  · rw [if_neg h, lookupAtt_setAtt_self]
    rcases hm : lookupAtt m e with _ | s
    · rfl
    · exact absurd (hm ▸ rfl) h

/-- A kept index was not in the starting attested set. -/
theorem filterIndices_not_mem :
    ∀ (l : List ℕ) (s : Finset ℕ), ∀ v ∈ (filterIndices s l).1, v ∉ s := by
  intro l
  induction l with
  | nil => intro s v hv; cases hv
  | cons i rest ih =>
    intro s v hv
    by_cases hi : i ∈ s
    · rw [filterIndices, if_pos hi] at hv
      exact ih s v hv
    · rw [filterIndices, if_neg hi] at hv
      rcases List.mem_cons.mp hv with rfl | hv
      · exact hi
      · intro hvs
        exact ih (insert i s) v hv (Finset.mem_insert_of_mem hvs)

/-- The starting attested set is contained in the filter loop's final
set. -/
theorem filterIndices_subset :
    ∀ (l : List ℕ) (s : Finset ℕ), s ⊆ (filterIndices s l).2 := by
  intro l
  induction l with
  | nil => intro s; exact Finset.Subset.refl s
  | cons i rest ih =>
    intro s
    by_cases hi : i ∈ s
    · rw [filterIndices, if_pos hi]
      exact ih s
    · rw [filterIndices, if_neg hi]
      exact (Finset.subset_insert i s).trans (ih (insert i s))

/-- Every kept index is in the filter loop's final attested set. -/
theorem filterIndices_kept_mem :
    ∀ (l : List ℕ) (s : Finset ℕ), ∀ v ∈ (filterIndices s l).1,
      v ∈ (filterIndices s l).2 := by
  intro l
  induction l with
  | nil => intro s v hv; cases hv
  | cons i rest ih =>
    intro s v hv
    by_cases hi : i ∈ s
    · rw [filterIndices, if_pos hi] at hv ⊢
      exact ih s v hv
    · rw [filterIndices, if_neg hi] at hv ⊢
      rcases List.mem_cons.mp hv with rfl | hv
      · exact filterIndices_subset rest (insert v s) (Finset.mem_insert_self v s)
      · exact ih (insert i s) v hv

/-- On every path, `Attest` preserves slots-per-epoch and leaves the
duty's epoch entry of the attested map at the filter loop's final set:
the only deletion is of epoch − 2, on the success path. -/
theorem Attest_service_spec (svc : AttesterService) (duty : Duty)
    (env : AttestEnv) :
    (Attest svc duty env).service.slotsPerEpoch = svc.slotsPerEpoch ∧
    lookupAtt (Attest svc duty env).service.attested
        (duty.slot / svc.slotsPerEpoch) =
      some (filterIndices
        ((lookupAtt (ensureAtt svc.attested (duty.slot / svc.slotsPerEpoch))
          (duty.slot / svc.slotsPerEpoch)).getD ∅) duty.validatorIndices).2 := by
  unfold Attest
  cases henv : env.attestationData with
  | error u => exact ⟨rfl, lookupAtt_setAtt_self _ _ _⟩
  | ok ad =>
    dsimp only
    split_ifs with h1 h2 h3 h5
    · exact ⟨rfl, lookupAtt_setAtt_self _ _ _⟩
    · exact ⟨rfl, lookupAtt_setAtt_self _ _ _⟩
    · exact ⟨rfl, lookupAtt_setAtt_self _ _ _⟩
    all_goals cases hacc : env.accounts with
      | error u => exact ⟨rfl, lookupAtt_setAtt_self _ _ _⟩
      | ok accounts =>
        dsimp only
        rcases hI : attestInner duty _ accounts ad env with ⟨res, sub⟩
        cases res with
        | error er => exact ⟨rfl, lookupAtt_setAtt_self _ _ _⟩
        | ok atts =>
          refine ⟨rfl, ?_⟩
          first
            | exact lookupAtt_setAtt_self _ _ _
            | rw [lookupAtt_delAtt _ _ _ (by omega), lookupAtt_setAtt_self]

/-- When the attestation-data fetch succeeds, `Attest` ends in one of the
three validation errors exactly when the fetched data fails one of the
three chain-time checks, and in that case nothing is submitted. -/
theorem Attest_validation (svc : AttesterService) (duty : Duty)
    (env : AttestEnv) (ad : AttestationData)
    (hfetch : env.attestationData = .ok ad) :
    (((Attest svc duty env).result = .error .slotMismatch ∨
      (Attest svc duty env).result = .error .sourceAboveTarget ∨
      (Attest svc duty env).result = .error .targetAboveCurrent) ↔
      (ad.slot ≠ duty.slot ∨ ad.target.epoch < ad.source.epoch ∨
        duty.slot / svc.slotsPerEpoch < ad.target.epoch)) ∧
    ((ad.slot ≠ duty.slot ∨ ad.target.epoch < ad.source.epoch ∨
      duty.slot / svc.slotsPerEpoch < ad.target.epoch) →
      (Attest svc duty env).submitted = false) := by
  unfold Attest
  rw [hfetch]
  dsimp only
  by_cases h1 : ad.slot ≠ duty.slot
  · rw [if_pos h1]
    simp [h1]
  rw [if_neg h1]
  by_cases h2 : ad.target.epoch < ad.source.epoch
  · rw [if_pos h2]
    simp [h2]
  rw [if_neg h2]
  by_cases h3 : duty.slot / svc.slotsPerEpoch < ad.target.epoch
  · rw [if_pos h3]
    simp [h3]
  rw [if_neg h3]
  cases hacc : env.accounts with
  | error u => simp [h1, h2, h3]
  | ok accounts =>
    unfold attestInner
    cases hsig : env.signatures with
    | error u => simp [h1, h2, h3]
    | ok sigs =>
      dsimp only
      split_ifs <;> simp [h1, h2, h3]

/-- Kept validators were not in the epoch's attested set beforehand. -/
theorem kept_not_already_attested (svc : AttesterService) (duty : Duty) :
    ∀ v ∈ keptIndices svc duty,
      v ∉ (lookupAtt svc.attested (duty.slot / svc.slotsPerEpoch)).getD ∅ := by
  intro v hv hmem
  unfold keptIndices at hv
  exact filterIndices_not_mem _ _ v hv
    ((lookupAtt_ensureAtt_getD svc.attested _).symm ▸ hmem)

/-- After any `Attest` invocation (error paths included), the kept
validators are in the epoch's attested set. -/
theorem Attest_kept_recorded (svc : AttesterService) (duty : Duty)
    (env : AttestEnv) :
    ∀ v ∈ keptIndices svc duty,
      v ∈ (lookupAtt (Attest svc duty env).service.attested
        (duty.slot / svc.slotsPerEpoch)).getD ∅ := by
  obtain ⟨_, hlook⟩ := Attest_service_spec svc duty env
  intro v hv
  unfold keptIndices at hv
  rw [hlook]
  simpa using filterIndices_kept_mem _ _ v hv

/-- A second invocation for the same epoch keeps none of the validators
the first one kept. -/
theorem Attest_retry_kept_disjoint (svc : AttesterService) (d1 d2 : Duty)
    (e1 : AttestEnv)
    (h : d1.slot / svc.slotsPerEpoch = d2.slot / svc.slotsPerEpoch) :
    ∀ v ∈ keptIndices (Attest svc d1 e1).service d2,
      v ∉ keptIndices svc d1 := by
  obtain ⟨hspe, hlook⟩ := Attest_service_spec svc d1 e1
  intro v hv hv1
  unfold keptIndices at hv hv1
  have hne := filterIndices_not_mem _ _ v hv
  rw [lookupAtt_ensureAtt_getD, hspe, ← h, hlook] at hne
  simp only [Option.getD_some] at hne
  exact hne (filterIndices_kept_mem _ _ v hv1)

/-- C4: the single-action interlock.  `Attest` signs only for validator
indices not already in the duty epoch's attested set, it records them in
that set before signing (so they are recorded on every path), and a second
invocation for the same epoch — sequentialised; the source guards the
per-index test-and-insert with a mutex — keeps (hence signs for) none of
the validators of the first: at most one attestation per validator per
epoch. -/
theorem c4_single_attestation_per_epoch (svc : AttesterService)
    (d1 d2 : Duty) (e1 : AttestEnv)
    (h : d1.slot / svc.slotsPerEpoch = d2.slot / svc.slotsPerEpoch) :
    (∀ v ∈ keptIndices svc d1,
      v ∉ (lookupAtt svc.attested (d1.slot / svc.slotsPerEpoch)).getD ∅) ∧
    (∀ v ∈ keptIndices svc d1,
      v ∈ (lookupAtt (Attest svc d1 e1).service.attested
        (d1.slot / svc.slotsPerEpoch)).getD ∅) ∧
    (∀ v ∈ keptIndices (Attest svc d1 e1).service d2,
      v ∉ keptIndices svc d1) :=
  ⟨kept_not_already_attested svc d1, Attest_kept_recorded svc d1 e1,
    Attest_retry_kept_disjoint svc d1 d2 e1 h⟩

/-- Witness fixtures for the attester theorems. -/
def wSvc : AttesterService := ⟨32, []⟩

/-- A one-validator duty at slot 64. -/
def wDuty1 : Duty := ⟨64, [7], [0], [0], [(0, 4)]⟩

/-- A two-validator duty at slot 65 (same epoch as slot 64). -/
def wDuty2 : Duty := ⟨65, [7, 8], [0, 0], [0, 1], [(0, 4)]⟩

/-- An environment whose fetched attestation data passes validation. -/
def wEnv : AttestEnv := ⟨.ok ⟨64, 0, 0, ⟨0, 0⟩, ⟨2, 0⟩⟩, .ok [(7, 100)],
  .ok [5], true⟩

/-- An environment whose fetched attestation data has the wrong slot. -/
def wEnvBad : AttestEnv := ⟨.ok ⟨63, 0, 0, ⟨0, 0⟩, ⟨2, 0⟩⟩, .ok [(7, 100)],
  .ok [5], true⟩

/-- Witness for C4 at a concrete service, duties of the same epoch and
environment. -/
theorem c4_single_attestation_per_epoch_witness :
    wDuty1.slot / wSvc.slotsPerEpoch = wDuty2.slot / wSvc.slotsPerEpoch ∧
    ((∀ v ∈ keptIndices wSvc wDuty1,
        v ∉ (lookupAtt wSvc.attested
          (wDuty1.slot / wSvc.slotsPerEpoch)).getD ∅) ∧
     (∀ v ∈ keptIndices wSvc wDuty1,
        v ∈ (lookupAtt (Attest wSvc wDuty1 wEnv).service.attested
          (wDuty1.slot / wSvc.slotsPerEpoch)).getD ∅) ∧
     (∀ v ∈ keptIndices (Attest wSvc wDuty1 wEnv).service wDuty2,
        v ∉ keptIndices wSvc wDuty1)) :=
  ⟨by decide,
    c4_single_attestation_per_epoch wSvc wDuty1 wDuty2 wEnv (by decide)⟩

/-- C5: when the fetch succeeds, `Attest` returns a validation error
exactly when the returned data's slot differs from the duty's slot, or
source.epoch exceeds target.epoch, or target.epoch exceeds the epoch of
the duty's slot; a failed validation also precludes any submission. -/
theorem c5_attestation_data_validation (svc : AttesterService) (duty : Duty)
    (env : AttestEnv) (ad : AttestationData)
    (hfetch : env.attestationData = .ok ad) :
    (((Attest svc duty env).result = .error .slotMismatch ∨
      (Attest svc duty env).result = .error .sourceAboveTarget ∨
      (Attest svc duty env).result = .error .targetAboveCurrent) ↔
      (ad.slot ≠ duty.slot ∨ ad.target.epoch < ad.source.epoch ∨
        duty.slot / svc.slotsPerEpoch < ad.target.epoch)) ∧
    ((ad.slot ≠ duty.slot ∨ ad.target.epoch < ad.source.epoch ∨
      duty.slot / svc.slotsPerEpoch < ad.target.epoch) →
      (Attest svc duty env).submitted = false) :=
  Attest_validation svc duty env ad hfetch

/-- Witness for C5: a fetch that returns data for the wrong slot. -/
theorem c5_attestation_data_validation_witness :
    wEnvBad.attestationData = .ok ⟨63, 0, 0, ⟨0, 0⟩, ⟨2, 0⟩⟩ ∧
    ((((Attest wSvc wDuty1 wEnvBad).result = .error .slotMismatch ∨
       (Attest wSvc wDuty1 wEnvBad).result = .error .sourceAboveTarget ∨
       (Attest wSvc wDuty1 wEnvBad).result = .error .targetAboveCurrent) ↔
       ((63 : ℕ) ≠ wDuty1.slot ∨
        (⟨2, 0⟩ : Checkpoint).epoch < (⟨0, 0⟩ : Checkpoint).epoch ∨
        wDuty1.slot / wSvc.slotsPerEpoch < (⟨2, 0⟩ : Checkpoint).epoch)) ∧
     (((63 : ℕ) ≠ wDuty1.slot ∨
       (⟨2, 0⟩ : Checkpoint).epoch < (⟨0, 0⟩ : Checkpoint).epoch ∨
       wDuty1.slot / wSvc.slotsPerEpoch < (⟨2, 0⟩ : Checkpoint).epoch) →
       (Attest wSvc wDuty1 wEnvBad).submitted = false)) :=
  ⟨rfl, c5_attestation_data_validation wSvc wDuty1 wEnvBad
    ⟨63, 0, 0, ⟨0, 0⟩, ⟨2, 0⟩⟩ rfl⟩

/-- C6 counterexample: `Attest` aborts with the slot-mismatch validation
error, yet validator 7 of the duty — absent from the attested set
beforehand — *is* in the attested set afterwards: the filter loop added
it before validation ran, and the error path does not remove it. -/
theorem c6_counterexample :
    (Attest wSvc wDuty1 wEnvBad).result = .error .slotMismatch ∧
    7 ∉ (lookupAtt wSvc.attested (wDuty1.slot / wSvc.slotsPerEpoch)).getD
      ∅ ∧
    7 ∈ (lookupAtt (Attest wSvc wDuty1 wEnvBad).service.attested
      (wDuty1.slot / wSvc.slotsPerEpoch)).getD ∅ :=
  ⟨rfl, by decide, by decide⟩

/-- C6 (amended): when the fetched attestation data fails validation the
duty is aborted with a validation error, but the duty's kept validators
*remain recorded* in the epoch's attested set (they were inserted by the
filter loop before validation), so a retry of the same duty filters all
of them out instead of signing again. -/
theorem c6_attested_kept_on_validation_error (svc : AttesterService)
    (duty : Duty) (env : AttestEnv) (ad : AttestationData)
    (hfetch : env.attestationData = .ok ad)
    (hbad : ad.slot ≠ duty.slot ∨ ad.target.epoch < ad.source.epoch ∨
      duty.slot / svc.slotsPerEpoch < ad.target.epoch) :
    ((Attest svc duty env).result = .error .slotMismatch ∨
     (Attest svc duty env).result = .error .sourceAboveTarget ∨
     (Attest svc duty env).result = .error .targetAboveCurrent) ∧
    (∀ v ∈ keptIndices svc duty,
      v ∈ (lookupAtt (Attest svc duty env).service.attested
        (duty.slot / svc.slotsPerEpoch)).getD ∅) ∧
    (∀ v ∈ keptIndices (Attest svc duty env).service duty,
      v ∉ keptIndices svc duty) :=
  ⟨(Attest_validation svc duty env ad hfetch).1.mpr hbad,
    Attest_kept_recorded svc duty env,
    Attest_retry_kept_disjoint svc duty duty env rfl⟩

/-- Witness for C6 (amended) at the slot-mismatch environment. -/
theorem c6_attested_kept_on_validation_error_witness :
    (wEnvBad.attestationData = .ok ⟨63, 0, 0, ⟨0, 0⟩, ⟨2, 0⟩⟩ ∧
     ((63 : ℕ) ≠ wDuty1.slot ∨
      (⟨2, 0⟩ : Checkpoint).epoch < (⟨0, 0⟩ : Checkpoint).epoch ∨
      wDuty1.slot / wSvc.slotsPerEpoch < (⟨2, 0⟩ : Checkpoint).epoch)) ∧
    (((Attest wSvc wDuty1 wEnvBad).result = .error .slotMismatch ∨
      (Attest wSvc wDuty1 wEnvBad).result = .error .sourceAboveTarget ∨
      (Attest wSvc wDuty1 wEnvBad).result = .error .targetAboveCurrent) ∧
     (∀ v ∈ keptIndices wSvc wDuty1,
        v ∈ (lookupAtt (Attest wSvc wDuty1 wEnvBad).service.attested
          (wDuty1.slot / wSvc.slotsPerEpoch)).getD ∅) ∧
     (∀ v ∈ keptIndices (Attest wSvc wDuty1 wEnvBad).service wDuty1,
        v ∉ keptIndices wSvc wDuty1)) :=
  ⟨⟨rfl, by decide⟩,
    c6_attested_kept_on_validation_error wSvc wDuty1 wEnvBad
      ⟨63, 0, 0, ⟨0, 0⟩, ⟨2, 0⟩⟩ rfl (by decide)⟩

/-- Every attestation built by the signing step carries a non-zero
signature: all-zero signatures are skipped. -/
theorem buildAttestations_signature (duty : Duty) (kept : List ℕ)
    (accounts : List (ℕ × ℕ)) (ad : AttestationData) (sigs : List ℕ) :
    ∀ a ∈ buildAttestations duty kept accounts ad sigs,
      a.signature ≠ 0 := by
  intro a ha
  rw [buildAttestations, List.mem_filterMap] at ha
  obtain ⟨q, _, hq⟩ := ha
  by_cases h0 : q.1 = 0
  · rw [if_pos h0] at hq
    cases hq
  · rw [if_neg h0] at hq
    cases hq
    exact h0

/-- The signing step builds exactly one attestation per non-zero
signature. -/
theorem buildAttestations_length (duty : Duty) (kept : List ℕ)
    (ad : AttestationData) :
    ∀ (sigs : List ℕ) (accounts : List (ℕ × ℕ)),
      sigs.length = accounts.length →
      (buildAttestations duty kept accounts ad sigs).length =
        (sigs.filter (fun s => s != 0)).length := by
  intro sigs
  induction sigs with
  | nil => intro accounts _; rfl
  | cons s sigs ih =>
    intro accounts h
    cases accounts with
    | nil => simp at h
    | cons a accounts =>
      have hrec := ih accounts (by simpa using h)
      by_cases hs : s = 0
      · simpa [buildAttestations, List.filter_cons, hs] using hrec
      · simpa [buildAttestations, List.filter_cons, hs] using hrec

/-- C10 (implicit): in the signing step, validators whose signature is the
all-zero BLS signature are skipped while the rest still get attestations
(one per non-zero signature, all with non-zero signatures), and when no
non-zero signature remains the internal `attest` makes no submission call
and returns the empty list with no error. -/
theorem c10_zero_signatures_skipped (duty : Duty) (kept : List ℕ)
    (accounts : List (ℕ × ℕ)) (ad : AttestationData) (env : AttestEnv)
    (sigs : List ℕ) (hsig : env.signatures = .ok sigs)
    (hlen : sigs.length = accounts.length) :
    (∀ a ∈ buildAttestations duty kept accounts ad sigs,
      a.signature ≠ 0) ∧
    (buildAttestations duty kept accounts ad sigs).length =
      (sigs.filter (fun s => s != 0)).length ∧
    ((sigs.filter (fun s => s != 0)).length = 0 →
      attestInner duty kept accounts ad env = (.ok [], false)) := by
  refine ⟨buildAttestations_signature duty kept accounts ad sigs,
    buildAttestations_length duty kept ad sigs accounts hlen, ?_⟩
  intro hz
  have hb : buildAttestations duty kept accounts ad sigs = [] :=
    List.length_eq_zero.mp
      ((buildAttestations_length duty kept ad sigs accounts hlen).trans hz)
  unfold attestInner
  rw [hsig]
  dsimp only
  rw [hb]
  rfl

/-- Environment for the C10 witness: two accounts, the first signature
all-zero, the second not. -/
def wEnvSig : AttestEnv := ⟨.ok ⟨64, 0, 0, ⟨0, 0⟩, ⟨2, 0⟩⟩,
  .ok [(7, 100), (8, 101)], .ok [0, 5], true⟩

/-- Witness for C10: signatures [0, 5] over two accounts give one
attestation with the non-zero signature. -/
theorem c10_zero_signatures_skipped_witness :
    (wEnvSig.signatures = .ok [0, 5] ∧
     ([0, 5] : List ℕ).length = ([(7, 100), (8, 101)] : List (ℕ × ℕ)).length) ∧
    ((∀ a ∈ buildAttestations wDuty2 [7, 8] [(7, 100), (8, 101)]
        ⟨64, 0, 0, ⟨0, 0⟩, ⟨2, 0⟩⟩ [0, 5], a.signature ≠ 0) ∧
     (buildAttestations wDuty2 [7, 8] [(7, 100), (8, 101)]
        ⟨64, 0, 0, ⟨0, 0⟩, ⟨2, 0⟩⟩ [0, 5]).length =
       (([0, 5] : List ℕ).filter (fun s => s != 0)).length ∧
     ((([0, 5] : List ℕ).filter (fun s => s != 0)).length = 0 →
       attestInner wDuty2 [7, 8] [(7, 100), (8, 101)]
         ⟨64, 0, 0, ⟨0, 0⟩, ⟨2, 0⟩⟩ wEnvSig = (.ok [], false))) :=
  ⟨⟨rfl, rfl⟩,
    c10_zero_signatures_skipped wDuty2 [7, 8] [(7, 100), (8, 101)]
      ⟨64, 0, 0, ⟨0, 0⟩, ⟨2, 0⟩⟩ wEnvSig [0, 5] rfl rfl⟩

/-! ## Validator-registration submission
(`services/blockrelay/standard/submitvalidatorregistrations.go`) -/

/-- Environment of one `SubmitValidatorRegistrations` call: the accounts
(validator index, pubkey), the fee-recipient map, the signer's outcome per
pubkey (`none` = signing error) and the configured registrations
submitters with their per-relay outcome. -/
structure RegEnv where
  accounts : List (ℕ × ℕ)
  feeRecipients : List (ℕ × ℕ)
  signOutcome : ℕ → Option ℕ
  submitters : List (ℕ × Bool)

/-- Fee-recipient lookup. -/
def lookupFee (frs : List (ℕ × ℕ)) (idx : ℕ) : Option ℕ :=
  (frs.find? (fun p => p.1 == idx)).map (·.2)

/-- The signed-registrations build loop (lines 42–85): an account with no
fee recipient, or whose registration fails to sign, is logged and
skipped; the rest become signed registrations (pubkey, fee recipient,
signature). -/
def buildRegistrations (env : RegEnv) : List (ℕ × ℕ × ℕ) :=
  env.accounts.filterMap (fun p =>
    match lookupFee env.feeRecipients p.1 with
    | none => none
    | some fee =>
      match env.signOutcome p.2 with
      | none => none
      | some sig => some (p.2, fee, sig))

/-- `Service.SubmitValidatorRegistrations` (lines 33–109): submits the
signed registrations to every configured registrations submitter in
parallel; a per-relay failure is only logged; after waiting for all
submissions the function returns nil.  Output: the returned error value,
the relays the submission was attempted on, and the relays whose failure
was logged. -/
def submitValidatorRegistrations (env : RegEnv) :
    Except Unit Unit × List ℕ × List ℕ :=
  let _regs := buildRegistrations env
  let attempted := env.submitters.map (·.1)
  let failedLog := (env.submitters.filter (fun p => !p.2)).map (·.1)
  (.ok (), attempted, failedLog)

/-- C7: relay submission is best-effort — the submission is attempted on
every configured registrations submitter, failures surface only in the
log, and the call returns no error whatever the per-relay outcomes. -/
theorem c7_registrations_best_effort (env : RegEnv) :
    (submitValidatorRegistrations env).1 = .ok () ∧
    (submitValidatorRegistrations env).2.1 = env.submitters.map Prod.fst ∧
    (submitValidatorRegistrations env).2.2 =
      (env.submitters.filter (fun p => !p.2)).map Prod.fst :=
  ⟨rfl, rfl, rfl⟩

/-! ## Time-delay hack (`util/time_delay_hack.go`) -/

/-- The module state of `TimeDelayHack`: the last-read instant (`none` =
the zero time) and the cached lag.  Time is in seconds, the lag in
milliseconds. -/
structure TDHState where
  lastRead : Option ℕ
  lag : ℤ
deriving DecidableEq

/-- `TimeDelayHack` (lines 17–36) as a state machine step.  `file` is the
observable environment: `none` when `TIME_DELAY_HACK` is unset,
`some none` when the named file cannot be read or parsed, `some (some n)`
when it parses to `n`.  Output: new state, returned duration in
milliseconds, and whether the file was consulted. -/
def timeDelayHack (st : TDHState) (now : ℕ) (file : Option (Option ℤ)) :
    TDHState × ℤ × Bool :=
  let due := match st.lastRead with
    | none => true
    | some t => decide (t + 60 ≤ now)
  if due then
    match file with
    | none => (⟨some now, st.lag⟩, st.lag, false)
    | some none => (⟨some now, st.lag⟩, 0, true)
    | some (some n) => (⟨some now, n⟩, n, true)
  else (st, st.lag, false)

/-- C9: the file is consulted at most once per 60 seconds — inside the
60-second window after a read the cached lag is returned without touching
the file; when due, a successful parse caches and returns the value; an
unset environment variable leaves the cached value (initially zero) in
place and returns it. -/
theorem c9_time_delay_hack (st : TDHState) (now t : ℕ) (n : ℤ)
    (file : Option (Option ℤ)) (h : st.lastRead = some t) :
    (now < t + 60 → timeDelayHack st now file = (st, st.lag, false)) ∧
    (t + 60 ≤ now →
      timeDelayHack st now (some (some n)) = (⟨some now, n⟩, n, true)) ∧
    (t + 60 ≤ now →
      timeDelayHack st now none = (⟨some now, st.lag⟩, st.lag, false)) ∧
    timeDelayHack ⟨none, 0⟩ now none = (⟨some now, 0⟩, 0, false) := by
  refine ⟨?_, ?_, ?_, ?_⟩
  · intro hlt
    simp [timeDelayHack, h, Nat.not_le.mpr hlt]
  · intro hle
    simp [timeDelayHack, h, hle]
  · intro hle
    simp [timeDelayHack, h, hle]
  · simp [timeDelayHack]

/-- Witness for C9 at a concrete cached state, due instant and parsed
file value. -/
theorem c9_time_delay_hack_witness :
    (⟨some 100, 7⟩ : TDHState).lastRead = some 100 ∧
    (((130 : ℕ) < 100 + 60 →
       timeDelayHack ⟨some 100, 7⟩ 130 (some (some 42)) =
         (⟨some 100, 7⟩, 7, false)) ∧
     (100 + 60 ≤ (130 : ℕ) →
       timeDelayHack ⟨some 100, 7⟩ 130 (some (some 42)) =
         (⟨some 130, 42⟩, 42, true)) ∧
     (100 + 60 ≤ (130 : ℕ) →
       timeDelayHack ⟨some 100, 7⟩ 130 none = (⟨some 130, 7⟩, 7, false)) ∧
     timeDelayHack ⟨none, 0⟩ 130 none = (⟨some 130, 0⟩, 0, false)) :=
  ⟨rfl, c9_time_delay_hack ⟨some 100, 7⟩ 130 100 42 (some (some 42)) rfl⟩

/-! ## Controller construction (`services/controller/standard`)

Only the construction test (`TestService`) is part of the snapshot; the
parameter check of `standard.New` is modelled from the spec below. -/

/-- Modelled from the spec: the controller's explicit option bag.  A
`Bool` field records whether the corresponding required dependency was
supplied; `specProviderErrors` records whether the supplied spec
provider's `Spec` call fails; the per-duty delays are optional.  The
source file with `standard.New` and its parameter check is missing from
the snapshot. -/
structure ControllerParams where
  monitor : Bool
  specProvider : Bool
  specProviderErrors : Bool
  forkScheduleProvider : Bool
  chainTimeService : Bool
  proposerDutiesProvider : Bool
  attesterDutiesProvider : Bool
  syncCommitteeDutiesProvider : Bool
  eventsProvider : Bool
  validatingAccountsProvider : Bool
  scheduler : Bool
  attester : Bool
  beaconBlockProposer : Bool
  beaconCommitteeSubscriber : Bool
  attestationAggregator : Bool
  accountsRefresher : Bool
  beaconBlockHeadersProvider : Bool
  signedBeaconBlockProvider : Bool
  maxAttestationDelay : Option ℕ
  maxProposalDelay : Option ℕ
  maxSyncCommitteeMessageDelay : Option ℕ
  attestationAggregationDelay : Option ℕ
  syncCommitteeAggregationDelay : Option ℕ

/-- Modelled from the spec: `standard.New`'s construction-time check —
each missing required field is an error (messages as asserted by
`TestService`), then the spec is fetched, whose failure is also a
construction error; delays are defaulted, never checked. -/
def controllerNew (p : ControllerParams) : Except String Unit :=
  if !p.monitor then .error "no monitor specified"
  else if !p.specProvider then .error "no spec provider specified"
  else if !p.forkScheduleProvider then
    .error "no fork schedule provider specified"
  else if !p.chainTimeService then .error "no chain time service specified"
  else if !p.proposerDutiesProvider then
    .error "no proposer duties provider specified"
  else if !p.attesterDutiesProvider then
    .error "no attester duties provider specified"
  else if !p.syncCommitteeDutiesProvider then
    .error "no sync committee duties provider specified"
  else if !p.eventsProvider then .error "no events provider specified"
  else if !p.validatingAccountsProvider then
    .error "no validating accounts provider specified"
  else if !p.scheduler then .error "no scheduler service specified"
  else if !p.attester then .error "no attester specified"
  else if !p.beaconBlockProposer then
    .error "no beacon block proposer specified"
  else if !p.beaconCommitteeSubscriber then
    .error "no beacon committee subscriber specified"
  else if !p.attestationAggregator then
    .error "no attestation aggregator specified"
  else if !p.accountsRefresher then .error "no accounts refresher specified"
  else if !p.beaconBlockHeadersProvider then
    .error "no beacon block headers provider specified"
  else if !p.signedBeaconBlockProvider then
    .error "no signed beacon block provider specified"
  else if p.specProviderErrors then .error "failed to obtain spec: error"
  else .ok ()

/-- C8: controller construction succeeds exactly when every required
dependency is supplied and the spec provider's `Spec` call succeeds; the
per-duty delay parameters never influence the outcome (defaults apply when
they are omitted). -/
theorem c8_controller_construction (p : ControllerParams) :
    controllerNew p = .ok () ↔
      (p.monitor = true ∧ p.specProvider = true ∧
       p.forkScheduleProvider = true ∧ p.chainTimeService = true ∧
       p.proposerDutiesProvider = true ∧ p.attesterDutiesProvider = true ∧
       p.syncCommitteeDutiesProvider = true ∧ p.eventsProvider = true ∧
       p.validatingAccountsProvider = true ∧ p.scheduler = true ∧
       p.attester = true ∧ p.beaconBlockProposer = true ∧
       p.beaconCommitteeSubscriber = true ∧
       p.attestationAggregator = true ∧ p.accountsRefresher = true ∧
       p.beaconBlockHeadersProvider = true ∧
       p.signedBeaconBlockProvider = true ∧
       p.specProviderErrors = false) := by
  obtain ⟨m, sp, spe, fs, ct, pd, atd, sd, ev, va, sch, att, bp, bcs, aa,
    ar, bh, sb, q1, q2, q3, q4, q5⟩ := p
  cases m <;> cases sp <;> cases fs <;> cases ct <;> simp [controllerNew]
  all_goals cases pd <;> cases atd <;> cases sd <;> cases ev <;>
    simp [controllerNew]
  all_goals cases va <;> cases sch <;> cases att <;> cases bp <;>
    simp [controllerNew]
  all_goals cases bcs <;> cases aa <;> cases ar <;> cases bh <;>
    cases sb <;> cases spe <;> simp [controllerNew]

end Vouch
